import Mathlib

/-!
Shallow embedding of the quiz-bot round engine implemented in `src/bot.py`:
catalog loading (`load_questions`), the per-user progress row of the `users`
table together with the `used_questions` table (`UserState`), the scoring
table (`POINTS`), the inline keyboard (`playing_kb`), the three settlement
paths (`answer_cb`, `on_time_out`, `hint_cb`), question selection
(`ask_new_question` / `draw`), and an interleaving model of the
timer-vs-answer race (`runSched`).

Randomness in the source (`random.shuffle`, `random.choice`,
`random.sample`) is modelled by passing the drawn value as an explicit
parameter constrained to the support of the distribution.  Database calls
are modelled as pure updates of a `UserState` record; the code's
early-return branches for an unset `db_pool` are not modelled (we embed the
configured-database run, the only mode in which progress persists at all).
Message-editing calls have no persistent-state effect and appear only as
comments or as no-op actions in the race model.
-/

namespace QuizBot

/-- Python `str.strip()` on the underlying character list: whitespace is
removed from both ends. -/
def stripChars (l : List Char) : List Char :=
  ((l.dropWhile Char.isWhitespace).reverse.dropWhile Char.isWhitespace).reverse

/-- Python `str.strip()`. -/
def pyStrip (s : String) : String := ⟨stripChars s.data⟩

/-- Python `str.lower()` (ASCII case folding, which covers the difficulty
keys the loader compares against). -/
def pyLower (s : String) : String := ⟨s.data.map Char.toLower⟩

/-- The `Question` record built by `Question.__init__` (src/bot.py:60-71). -/
structure Question where
  category : String
  difficulty : String
  question : String
  options : List String
  answer : String
deriving DecidableEq

/-- The deterministic question id: the source hashes the string
`"{category}|{difficulty}|{question}|{answer}"` with sha256
(src/bot.py:67-71).  We model the id by the hash preimage itself, which has
the same equality behaviour the code relies on for its anti-repeat logic. -/
def Question.qid (q : Question) : String :=
  q.category ++ "|" ++ q.difficulty ++ "|" ++ q.question ++ "|" ++ q.answer

/-- One raw JSON entry as read by `load_questions`; a missing field shows up
as the `dict.get` default (empty string / empty list) exactly as in the
source (src/bot.py:77-82). -/
structure RawItem where
  category : String
  difficulty : String
  question : String
  options : List String
  answer : String
deriving DecidableEq

/-- The per-item validation of `load_questions` (src/bot.py:77-88): strip
the text fields, lowercase the difficulty, and keep the entry only when all
fields are non-empty, the difficulty is one of the three known keys, and
the answer is a member of the option list. -/
def parseItem (it : RawItem) : Option Question :=
  let cat := pyStrip it.category
  let diff := pyLower (pyStrip it.difficulty)
  let qtext := pyStrip it.question
  let options := it.options
  let answer := pyStrip it.answer
  if cat ≠ "" ∧ (diff = "easy" ∨ diff = "medium" ∨ diff = "hard") ∧
      qtext ≠ "" ∧ options ≠ [] ∧ answer ≠ "" then
    if answer ∈ options then some ⟨cat, diff, qtext, options, answer⟩
    else none
  else none

/-- `load_questions` (src/bot.py:73-90): keep exactly the entries that pass
`parseItem`, in order. -/
def load_questions (raw : List RawItem) : List Question :=
  raw.filterMap parseItem

/-- The per-user persistent state: the `users` row (score, combo,
total_correct, total_wrong; src/bot.py:100-107) plus the set of rows of
`used_questions` belonging to the user (src/bot.py:109-113), kept as a
duplicate-free list of qids. -/
structure UserState where
  score : Int
  combo : Nat
  total_correct : Nat
  total_wrong : Nat
  used : List String
deriving DecidableEq

/-- `db_add_points` (src/bot.py:157-161): `score = score + delta`. -/
def db_add_points (s : UserState) (delta : Int) : UserState :=
  { s with score := s.score + delta }

/-- `db_set_combo` (src/bot.py:163-167). -/
def db_set_combo (s : UserState) (v : Nat) : UserState :=
  { s with combo := v }

/-- `db_inc_correct` (src/bot.py:169-173). -/
def db_inc_correct (s : UserState) : UserState :=
  { s with total_correct := s.total_correct + 1 }

/-- `db_inc_wrong` (src/bot.py:175-179). -/
def db_inc_wrong (s : UserState) : UserState :=
  { s with total_wrong := s.total_wrong + 1 }

/-- `db_mark_used` (src/bot.py:181-188): `INSERT ... ON CONFLICT DO
NOTHING`. -/
def db_mark_used (s : UserState) (qid : String) : UserState :=
  if qid ∈ s.used then s else { s with used := qid :: s.used }

/-- `db_is_used` (src/bot.py:190-198). -/
def db_is_used (s : UserState) (qid : String) : Bool :=
  decide (qid ∈ s.used)

/-- The scoring table `POINTS = {"easy": 5, "medium": 10, "hard": 15}`
(src/bot.py:38).  The Python dict lookup `POINTS[diff]` is only ever
reached with one of the three keys (they come from the difficulty
keyboard); outside that domain we return 0. -/
def POINTS (diff : String) : Int :=
  if diff = "easy" then 5
  else if diff = "medium" then 10
  else if diff = "hard" then 15
  else 0

/-- The in-memory `current` dict created by `ask_new_question`
(src/bot.py:415-427).  The presentation fields (`msg_id`, `chat_id`,
`expires_at`, `cat`) and the `timer_task` handle carry no settlement
state and are omitted. -/
structure Round where
  qid : String
  question : String
  options : List String
  correct_idx : Nat
  hinted : Bool
  disabled_idx : List Nat
  diff : String
deriving DecidableEq

/-- Round creation inside `ask_new_question` (src/bot.py:389-427): the
drawn question's options are shuffled once (`shuffled` stands for the
result of `random.shuffle`), `correct_idx = options.index(q.answer)`, the
hint is unused and nothing is disabled. -/
def mkRound (q : Question) (shuffled : List String) : Round :=
  { qid := q.qid
    question := q.question
    options := shuffled
    correct_idx := shuffled.indexOf q.answer
    hinted := false
    disabled_idx := []
    diff := q.difficulty }

/-- Callback data attached to an inline button (the strings `"noop"`,
`"ans|{idx}"`, `"hint"`, `"menu"` of the source, as a datatype). -/
inductive Callback
  | noop
  | ans (idx : Nat)
  | hintBtn
  | menuBtn
deriving DecidableEq

/-- One inline keyboard button: caption plus callback data. -/
structure Button where
  caption : String
  cb : Callback
deriving DecidableEq

/-- The option rows of `playing_kb` (src/bot.py:229-233): one row per
option, in list order; a disabled index renders as a `🚫`-prefixed button
whose callback is `noop`, an enabled one keeps its caption and answers
with `ans|idx`.  The `idx` argument threads Python's `enumerate`. -/
def optionRows (disabled : List Nat) : Nat → List String → List (List Button)
  | _, [] => []
  | idx, t :: rest =>
    (if idx ∈ disabled then [⟨"🚫 " ++ t, Callback.noop⟩]
     else [⟨t, Callback.ans idx⟩]) :: optionRows disabled (idx + 1) rest

/-- `playing_kb` (src/bot.py:226-239): the option rows followed by the
footer row with the hint and menu buttons. -/
def playing_kb (options : List String) (disabled : List Nat) : List (List Button) :=
  optionRows disabled 0 options ++
    [[⟨"🧠 Подсказка (-10)", Callback.hintBtn⟩, ⟨"⬅️ В меню", Callback.menuBtn⟩]]

/-- Whether a button submits an answer (its callback is `ans|idx`). -/
def Button.isAns : Button → Bool
  | ⟨_, Callback.ans _⟩ => true
  | _ => false

/-- The answer buttons of the rendered keyboard, in display order: these
are exactly the enabled options. -/
def enabledButtons (options : List String) (disabled : List Nat) : List Button :=
  (playing_kb options disabled).flatten.filter Button.isAns

/-- The enabled option indices, in display order. -/
def enabled_idx (options : List String) (disabled : List Nat) : List Nat :=
  (List.range options.length).filter (fun i => decide (i ∉ disabled))

/-- Result of the `answer_cb` handler as seen by the caller. -/
inductive AnswerOutcome
  | closed
  | settled (correct : Bool) (combo_bonus : Bool)
deriving DecidableEq

/-- The settlement logic of `answer_cb` (src/bot.py:488-562).  With no
active round the handler only answers the callback query ("Вопрос уже
закрыт") and returns.  Otherwise it cancels the timer (no persistent
effect), parses the pressed index (`idx` stands for a successfully parsed
`int(idx_s)`; a non-numeric payload returns without any state change),
compares it with `correct_idx` — it never consults `disabled_idx` — and
runs one of the two settlement branches; both end by marking the question
used and popping `current`. -/
def answer_cb (s : UserState) (ocur : Option Round) (idx : Nat) :
    UserState × Option Round × AnswerOutcome :=
  match ocur with
  | none => (s, none, AnswerOutcome.closed)
  | some cur =>
    if idx = cur.correct_idx then
      let s1 := db_add_points s (POINTS cur.diff)
      let s2 := db_inc_correct s1
      let combo := s2.combo + 1
      let s3 := db_set_combo s2 combo
      let s4 := if combo % 3 = 0 then db_add_points s3 5 else s3
      let s5 := db_mark_used s4 cur.qid
      (s5, none, AnswerOutcome.settled true (decide (combo % 3 = 0)))
    else
      let s1 := db_inc_wrong s
      let s2 := db_set_combo s1 0
      let s3 := db_mark_used s2 cur.qid
      (s3, none, AnswerOutcome.settled false false)

/-- `on_time_out` (src/bot.py:460-486): increment `total_wrong`, reset the
combo, edit the message to «Время вышло», pop `current`.  (We embed the
normal path where the handler resolves a user id from the context; if it
cannot, it skips the two database writes.)  The handler never calls
`db_mark_used` and never touches `score`. -/
def on_time_out (s : UserState) (_cur : Round) : UserState × Option Round :=
  let s1 := db_inc_wrong s
  let s2 := db_set_combo s1 0
  (s2, none)

/-- Result of the `hint_cb` handler as seen by the caller. -/
inductive HintOutcome
  | applied
  | noActive
  | alreadyUsed
deriving DecidableEq

/-- Insertion into a sorted list (ascending). -/
def insertSorted (x : Nat) : List Nat → List Nat
  | [] => [x]
  | y :: ys => if x ≤ y then x :: y :: ys else y :: insertSorted x ys

/-- Insertion sort on naturals. -/
def sortNats : List Nat → List Nat
  | [] => []
  | x :: xs => insertSorted x (sortNats xs)

/-- Python `sorted(set(l))` (src/bot.py:593): deduplicate, then sort. -/
def sortedDedup (l : List Nat) : List Nat :=
  sortNats l.dedup

/-- The incorrect option indices computed by `hint_cb` (src/bot.py:591):
`[i for i in range(len(options)) if i != correct_idx]`. -/
def wrong_idx (cur : Round) : List Nat :=
  (List.range cur.options.length).filter (fun i => decide (i ≠ cur.correct_idx))

/-- The support of `random.sample(wrong_idx, k=min(2, len(wrong_idx)))`
(src/bot.py:592): a duplicate-free selection of exactly `min 2 |wrong_idx|`
incorrect indices. -/
def validSample (cur : Round) (sample : List Nat) : Prop :=
  sample.Nodup ∧ (∀ i ∈ sample, i ∈ wrong_idx cur) ∧
    sample.length = min 2 (wrong_idx cur).length

instance validSampleDecidable (cur : Round) (sample : List Nat) :
    Decidable (validSample cur sample) :=
  inferInstanceAs (Decidable (sample.Nodup ∧ (∀ i ∈ sample, i ∈ wrong_idx cur) ∧
    sample.length = min 2 (wrong_idx cur).length))

/-- The round after a hint (src/bot.py:583, 593): `hinted = True` and
`disabled_idx = sorted(set(disabled_idx + to_disable))`.  The options list
and `correct_idx` are untouched. -/
def hintRound (cur : Round) (sample : List Nat) : Round :=
  { cur with hinted := true, disabled_idx := sortedDedup (cur.disabled_idx ++ sample) }

/-- `hint_cb` (src/bot.py:570-602): with no active round, or with the hint
already used, the handler only answers the callback query and changes
nothing; otherwise it sets `hinted`, deducts 10 points, and disables the
sampled incorrect indices. -/
def hint_cb (s : UserState) (ocur : Option Round) (sample : List Nat) :
    UserState × Option Round × HintOutcome :=
  match ocur with
  | none => (s, none, HintOutcome.noActive)
  | some cur =>
    if cur.hinted then (s, some cur, HintOutcome.alreadyUsed)
    else (db_add_points s (-10), some (hintRound cur sample), HintOutcome.applied)

/-- The available pool computed by `ask_new_question` (src/bot.py:359-365):
the (category, difficulty) pool filtered by `db_is_used`. -/
def availableQuestions (pool : List Question) (s : UserState) : List Question :=
  pool.filter (fun q => !db_is_used s q.qid)

/-- The draw of `ask_new_question` (src/bot.py:367-387): `None` when no
unused question remains (the "вопросы закончились" branch), otherwise
`random.choice(available)`, modelled by the caller-supplied index
`choice` reduced modulo the pool size. -/
def draw (pool : List Question) (s : UserState) (choice : Nat) : Option Question :=
  let av := availableQuestions pool s
  if h : av.length = 0 then none
  else some (av.get ⟨choice % av.length, Nat.mod_lt _ (Nat.pos_of_ne_zero h)⟩)

/-- The caller-visible outcome of `ask_new_question`. -/
inductive AskOutcome
  | exhausted
  | asked (r : Round)
deriving DecidableEq

/-- `ask_new_question` (src/bot.py:345-432) after category/difficulty are
fixed: exhaustion is terminal (the handler renders the message, resets
`current` and returns — no retry); otherwise a fresh round is created from
the drawn question. -/
def ask_new_question (pool : List Question) (s : UserState) (choice : Nat)
    (shuffled : List String) : AskOutcome :=
  match draw pool s choice with
  | none => AskOutcome.exhausted
  | some q => AskOutcome.asked (mkRound q shuffled)

/-! ### Interleaving model of the timeout / answer race

`timer_task` (src/bot.py:434-458) runs as a separate asyncio task and calls
`on_time_out` when the countdown reaches zero, while `answer_cb` runs in
the update-processing task.  Each `await` in the two handlers is a point
where the event loop may switch between them, and `Task.cancel` takes
effect at the cancelled task's next such point.  We model each handler as
the list of atomic segments between its awaits and run an explicit
interleaving.  (`answer_cb`'s correct-branch database writes are kept as
one segment; coarsening the answer side only removes interleavings, so it
cannot manufacture a spurious race.) -/

/-- Atomic segments of `on_time_out` between awaits: `db_inc_wrong`,
`db_set_combo(0)`, the message edit, and popping `current`. -/
inductive TAct
  | incWrongT
  | resetComboT
  | editMsgT
  | popCurT
deriving DecidableEq

/-- Atomic segments of `answer_cb`: reading `current` (after the
`q.answer()` await), cancelling the timer, the correct-branch settlement
writes, `db_mark_used`, and popping `current`. -/
inductive AAct
  | checkCurA
  | cancelA
  | settleA
  | markUsedA
  | popCurA
deriving DecidableEq

/-- A configuration of the race: the persistent state, the `cur` dict both
tasks captured, whether `user_data["current"]` is still set, the segments
each handler has yet to run, and whether the timer task has been
cancelled. -/
structure Config where
  st : UserState
  round : Round
  curPresent : Bool
  tActs : List TAct
  aActs : List AAct
  cancelled : Bool
deriving DecidableEq

/-- The effect of one `on_time_out` segment. -/
def applyTAct (c : Config) : TAct → Config
  | TAct.incWrongT => { c with st := db_inc_wrong c.st }
  | TAct.resetComboT => { c with st := db_set_combo c.st 0 }
  | TAct.editMsgT => c
  | TAct.popCurT => { c with curPresent := false }

/-- Run the timeout task for one segment: once cancelled, the task's
pending `CancelledError` discards all of its remaining segments. -/
def stepT (c : Config) : Config :=
  match c.tActs with
  | [] => c
  | a :: rest =>
    if c.cancelled then { c with tActs := [] }
    else applyTAct { c with tActs := rest } a

/-- The correct-branch persistence of `answer_cb` (src/bot.py:517-531) as
one state update: base points, `total_correct`, the combo read-increment-
write, and the conditional combo bonus. -/
def settleCorrectSt (s : UserState) (cur : Round) : UserState :=
  let s1 := db_add_points s (POINTS cur.diff)
  let s2 := db_inc_correct s1
  let combo := s2.combo + 1
  let s3 := db_set_combo s2 combo
  if combo % 3 = 0 then db_add_points s3 5 else s3

/-- Run the answer handler for one segment.  `checkCurA` aborts the
handler (src/bot.py:492-496) when `current` is gone. -/
def stepA (c : Config) : Config :=
  match c.aActs with
  | [] => c
  | a :: rest =>
    match a with
    | AAct.checkCurA =>
      if c.curPresent then { c with aActs := rest } else { c with aActs := [] }
    | AAct.cancelA => { c with aActs := rest, cancelled := true }
    | AAct.settleA => { c with aActs := rest, st := settleCorrectSt c.st c.round }
    | AAct.markUsedA => { c with aActs := rest, st := db_mark_used c.st c.round.qid }
    | AAct.popCurA => { c with aActs := rest, curPresent := false }

/-- The segment list of `on_time_out`. -/
def timeoutActs : List TAct :=
  [TAct.incWrongT, TAct.resetComboT, TAct.editMsgT, TAct.popCurT]

/-- The segment list of `answer_cb` for a correct answer. -/
def answerActs : List AAct :=
  [AAct.checkCurA, AAct.cancelA, AAct.settleA, AAct.markUsedA, AAct.popCurA]

/-- The race's starting configuration: the round is active, both events
have fired, neither handler has run yet. -/
def raceStart (s : UserState) (cur : Round) : Config :=
  { st := s, round := cur, curPresent := true,
    tActs := timeoutActs, aActs := answerActs, cancelled := false }

/-- Run a schedule: `true` steps the answer handler, `false` the timeout
task. -/
def runSched (sched : List Bool) (c : Config) : Config :=
  sched.foldl (fun c b => if b then stepA c else stepT c) c

/-- Number of settlements recorded in the persistent state: every
settlement path increments exactly one of `total_correct`,
`total_wrong`. -/
def settlements (s : UserState) : Nat :=
  s.total_correct + s.total_wrong

/-- Both handlers have run to completion (or been discarded). -/
def finished (c : Config) : Prop :=
  c.tActs = [] ∧ c.aActs = []

instance finishedDecidable (c : Config) : Decidable (finished c) :=
  inferInstanceAs (Decidable (c.tActs = [] ∧ c.aActs = []))

/-- The timeout handler runs first, then the answer handler. -/
def seqTimeoutFirst : List Bool :=
  [false, false, false, false, true, true, true, true, true]

/-- The answer handler runs first, then the timeout task is scheduled. -/
def seqAnswerFirst : List Bool :=
  [true, true, true, true, true, false, false, false, false]

/-- An interleaved schedule: the timeout handler persists its first two
writes (it is then suspended awaiting the message edit), the answer
handler runs to completion, and the cancelled timeout task is discarded. -/
def racySched : List Bool :=
  [false, false, true, true, true, true, true, false]

/-! ### Concrete inputs used by witnesses and counterexamples -/

/-- A zeroed progress row, as created by `ensure_user`. -/
def user0 : UserState := ⟨0, 0, 0, 0, []⟩

/-- A raw catalog entry with a single option equal to its answer: every
check of `load_questions` passes (`options` is non-empty and truthy,
`answer in options`), yet the resulting question has fewer than 2
options. -/
def rawSingle : RawItem := ⟨"Кино", "easy", "Год выхода?", ["1999"], "1999"⟩

/-- The question `load_questions` builds from `rawSingle`. -/
def qSingle : Question := ⟨"Кино", "easy", "Год выхода?", ["1999"], "1999"⟩

/-- A valid two-option catalog entry. -/
def rawPair : RawItem := ⟨"Кино", "hard", "Режиссёр?", ["Нолан", "Финчер"], "Нолан"⟩

/-- The question built from `rawPair`. -/
def qPair : Question := ⟨"Кино", "hard", "Режиссёр?", ["Нолан", "Финчер"], "Нолан"⟩

/-- An active three-option round (fresh, no hint yet). -/
def curThree : Round :=
  { qid := "q3", question := "?", options := ["а", "б", "в"],
    correct_idx := 0, hinted := false, disabled_idx := [], diff := "easy" }

/-- An active five-option round (fresh, no hint yet). -/
def curFive : Round :=
  { qid := "q5", question := "?", options := ["а", "б", "в", "г", "д"],
    correct_idx := 2, hinted := false, disabled_idx := [], diff := "medium" }

/-- A four-option round on which a hint already disabled options 1 and 2. -/
def curHinted : Round :=
  { qid := "q4", question := "?", options := ["а", "б", "в", "г"],
    correct_idx := 0, hinted := true, disabled_idx := [1, 2], diff := "easy" }

/-- A hard question round with the correct option first. -/
def curHard : Round :=
  { qid := "qh", question := "?", options := ["х", "у"],
    correct_idx := 0, hinted := false, disabled_idx := [], diff := "hard" }

/-- A user two-correct-answers into a streak, score 0. -/
def userStreak2 : UserState := ⟨0, 2, 2, 0, []⟩

/-- A user with 50 points, as in the spec's hint-then-timeout scenario. -/
def user50 : UserState := ⟨50, 1, 3, 1, []⟩

/-! ### Field behaviour of the persistence helpers -/

theorem db_mark_used_score (s : UserState) (q : String) :
    (db_mark_used s q).score = s.score := by
  unfold db_mark_used; split <;> rfl

theorem db_mark_used_combo (s : UserState) (q : String) :
    (db_mark_used s q).combo = s.combo := by
  unfold db_mark_used; split <;> rfl

theorem db_mark_used_total_correct (s : UserState) (q : String) :
    (db_mark_used s q).total_correct = s.total_correct := by
  unfold db_mark_used; split <;> rfl

theorem db_mark_used_total_wrong (s : UserState) (q : String) :
    (db_mark_used s q).total_wrong = s.total_wrong := by
  unfold db_mark_used; split <;> rfl

theorem mem_db_mark_used (s : UserState) (q x : String) :
    x ∈ (db_mark_used s q).used ↔ x = q ∨ x ∈ s.used := by
  by_cases hq : q ∈ s.used
  · simp only [db_mark_used, if_pos hq]
    constructor
    · exact Or.inr
    · rintro (rfl | hx)
      exacts [hq, hx]
  · simp [db_mark_used, hq]

/-! ### C1 -/

/-- C1 (code bug): the timeout settlement path leaves the user's
used-question set unchanged — `on_time_out` never calls `db_mark_used`, so
contrary to the claim (and to the bot's own rules text «Вопросы не
повторяются») a round that ends by timeout does not record its question as
used. -/
theorem timeout_leaves_question_unmarked (s : UserState) (cur : Round) :
    (on_time_out s cur).1.used = s.used := rfl

/-! ### Branch behaviour of the answer handler -/

theorem answer_correct_score (s : UserState) (cur : Round) (idx : Nat)
    (h : idx = cur.correct_idx) :
    (answer_cb s (some cur) idx).1.score
      = s.score + POINTS cur.diff + (if (s.combo + 1) % 3 = 0 then (5 : Int) else 0) := by
  simp only [answer_cb, if_pos h, db_mark_used_score]
  simp only [db_add_points, db_inc_correct, db_set_combo]
  split <;> simp

theorem answer_correct_combo (s : UserState) (cur : Round) (idx : Nat)
    (h : idx = cur.correct_idx) :
    (answer_cb s (some cur) idx).1.combo = s.combo + 1 := by
  simp only [answer_cb, if_pos h, db_mark_used_combo]
  simp only [db_add_points, db_inc_correct, db_set_combo]
  split <;> rfl

theorem answer_correct_outcome (s : UserState) (cur : Round) (idx : Nat)
    (h : idx = cur.correct_idx) :
    (answer_cb s (some cur) idx).2.2
      = AnswerOutcome.settled true (decide ((s.combo + 1) % 3 = 0)) := by
  simp only [answer_cb, if_pos h]
  rfl

theorem answer_wrong_score (s : UserState) (cur : Round) (idx : Nat)
    (h : idx ≠ cur.correct_idx) :
    (answer_cb s (some cur) idx).1.score = s.score := by
  simp only [answer_cb, if_neg h, db_mark_used_score]
  rfl

theorem answer_wrong_combo (s : UserState) (cur : Round) (idx : Nat)
    (h : idx ≠ cur.correct_idx) :
    (answer_cb s (some cur) idx).1.combo = 0 := by
  simp only [answer_cb, if_neg h, db_mark_used_combo]
  rfl

theorem answer_wrong_outcome (s : UserState) (cur : Round) (idx : Nat)
    (h : idx ≠ cur.correct_idx) :
    (answer_cb s (some cur) idx).2.2 = AnswerOutcome.settled false false := by
  simp only [answer_cb, if_neg h]

/-! ### C2 -/

/-- C2: on a correct answer the score rises by the `POINTS` base for the
difficulty plus an extra 5 (flagged as combo bonus) exactly when the
incremented streak is a multiple of 3, and the streak increments; on a
wrong answer or a timeout the score is unchanged and the streak resets to
0 with no bonus. -/
theorem scoring_policy_settlement (s : UserState) (cur : Round) (idx : Nat) :
    (idx = cur.correct_idx →
      (answer_cb s (some cur) idx).1.score
          = s.score + POINTS cur.diff + (if (s.combo + 1) % 3 = 0 then (5 : Int) else 0)
        ∧ (answer_cb s (some cur) idx).1.combo = s.combo + 1
        ∧ (answer_cb s (some cur) idx).2.2
            = AnswerOutcome.settled true (decide ((s.combo + 1) % 3 = 0)))
  ∧ (idx ≠ cur.correct_idx →
      (answer_cb s (some cur) idx).1.score = s.score
        ∧ (answer_cb s (some cur) idx).1.combo = 0
        ∧ (answer_cb s (some cur) idx).2.2 = AnswerOutcome.settled false false)
  ∧ (on_time_out s cur).1.score = s.score
  ∧ (on_time_out s cur).1.combo = 0 :=
  ⟨fun h => ⟨answer_correct_score s cur idx h, answer_correct_combo s cur idx h,
      answer_correct_outcome s cur idx h⟩,
    fun h => ⟨answer_wrong_score s cur idx h, answer_wrong_combo s cur idx h,
      answer_wrong_outcome s cur idx h⟩,
    rfl, rfl⟩

/-- Witness for C2: the spec's concrete scenario — a user with streak 2
and score 0 answers a hard question correctly and scores 15 + 5 with
streak 3 and the bonus flag set. -/
theorem scoring_policy_settlement_witness :
    (answer_cb userStreak2 (some curHard) 0).1.score = 20
  ∧ (answer_cb userStreak2 (some curHard) 0).1.combo = 3
  ∧ (answer_cb userStreak2 (some curHard) 0).2.2 = AnswerOutcome.settled true true := by
  have h := (scoring_policy_settlement userStreak2 curHard 0).1 rfl
  refine ⟨?_, ?_, ?_⟩
  · rw [h.1]; decide
  · rw [h.2.1]; decide
  · rw [h.2.2]; decide

/-! ### Membership in the hint's disabled set -/

theorem mem_insertSorted (x a : Nat) (l : List Nat) :
    a ∈ insertSorted x l ↔ a = x ∨ a ∈ l := by
  induction l with
  | nil => simp [insertSorted]
  | cons y ys ih =>
    by_cases hxy : x ≤ y
    · simp [insertSorted, hxy]
    · simp only [insertSorted, if_neg hxy, List.mem_cons, ih]
      tauto

theorem mem_sortNats (a : Nat) (l : List Nat) : a ∈ sortNats l ↔ a ∈ l := by
  induction l with
  | nil => simp [sortNats]
  | cons x xs ih => simp [sortNats, mem_insertSorted, ih]

theorem mem_sortedDedup (a : Nat) (l : List Nat) : a ∈ sortedDedup l ↔ a ∈ l := by
  simp [sortedDedup, mem_sortNats, List.mem_dedup]

theorem mem_hintRound_disabled (cur : Round) (sample : List Nat) (x : Nat) :
    x ∈ (hintRound cur sample).disabled_idx ↔ x ∈ cur.disabled_idx ∨ x ∈ sample := by
  simp [hintRound, mem_sortedDedup]

theorem mem_wrong_idx (cur : Round) (i : Nat) :
    i ∈ wrong_idx cur ↔ i < cur.options.length ∧ i ≠ cur.correct_idx := by
  simp [wrong_idx, List.mem_filter, List.mem_range]

theorem mem_enabled_idx (opts : List String) (dis : List Nat) (i : Nat) :
    i ∈ enabled_idx opts dis ↔ i < opts.length ∧ i ∉ dis := by
  simp [enabled_idx, List.mem_filter, List.mem_range]

theorem correct_idx_not_disabled_after_hint (cur : Round) (sample : List Nat)
    (hsub : ∀ i ∈ sample, i ∈ wrong_idx cur)
    (h0 : cur.correct_idx ∉ cur.disabled_idx) :
    cur.correct_idx ∉ (hintRound cur sample).disabled_idx := by
  rw [mem_hintRound_disabled]
  rintro (hc | hc)
  · exact h0 hc
  · exact ((mem_wrong_idx cur _).1 (hsub _ hc)).2 rfl

/-! ### C10 -/

/-- C10: the hint's candidate set `wrong_idx` excludes the correct index
and the sample is drawn from it, so applying a hint never disables the
correct option: afterwards the correct index is still outside the disabled
set and still appears among the enabled indices. -/
theorem hint_never_disables_correct_option (cur : Round) (sample : List Nat)
    (hsub : ∀ i ∈ sample, i ∈ wrong_idx cur)
    (h0 : cur.correct_idx ∉ cur.disabled_idx)
    (hlt : cur.correct_idx < cur.options.length) :
    cur.correct_idx ∉ (hintRound cur sample).disabled_idx
  ∧ cur.correct_idx ∈
      enabled_idx (hintRound cur sample).options (hintRound cur sample).disabled_idx := by
  have hnot := correct_idx_not_disabled_after_hint cur sample hsub h0
  exact ⟨hnot, (mem_enabled_idx _ _ _).2 ⟨hlt, hnot⟩⟩

/-- Witness for C10: on the five-option round with correct index 2,
disabling options 1 and 3 keeps option 2 enabled. -/
theorem hint_never_disables_correct_option_witness :
    curFive.correct_idx ∉ (hintRound curFive [1, 3]).disabled_idx
  ∧ curFive.correct_idx ∈
      enabled_idx (hintRound curFive [1, 3]).options (hintRound curFive [1, 3]).disabled_idx :=
  hint_never_disables_correct_option curFive [1, 3] (by decide) (by decide) (by decide)

/-! ### C5 -/

theorem hint_cb_fresh (s : UserState) (cur : Round) (sample : List Nat)
    (hfresh : cur.hinted = false) :
    hint_cb s (some cur) sample
      = (db_add_points s (-10), some (hintRound cur sample), HintOutcome.applied) := by
  simp [hint_cb, hfresh]

/-- C5: applying a hint on an active, not-yet-hinted round deducts exactly
10 points (and touches nothing else in the user's progress); with no
active round, or with the hint already used, the handler is a pure no-op
signalling rejection; and the penalty is never refunded — after each of
the three settlement outcomes of the hinted round the 10-point deduction
still stands in the final score. -/
theorem hint_penalty_semantics (s : UserState) (cur : Round) (sample : List Nat) (idx : Nat)
    (hfresh : cur.hinted = false) :
    hint_cb s none sample = (s, none, HintOutcome.noActive)
  ∧ (∀ cur2 : Round, cur2.hinted = true →
      hint_cb s (some cur2) sample = (s, some cur2, HintOutcome.alreadyUsed))
  ∧ (hint_cb s (some cur) sample).1 = { s with score := s.score - 10 }
  ∧ (hint_cb s (some cur) sample).2.2 = HintOutcome.applied
  ∧ (on_time_out (hint_cb s (some cur) sample).1 (hintRound cur sample)).1.score
      = s.score - 10
  ∧ (idx ≠ (hintRound cur sample).correct_idx →
      (answer_cb (hint_cb s (some cur) sample).1 (some (hintRound cur sample)) idx).1.score
        = s.score - 10)
  ∧ (idx = (hintRound cur sample).correct_idx →
      (answer_cb (hint_cb s (some cur) sample).1 (some (hintRound cur sample)) idx).1.score
        = s.score - 10 + POINTS cur.diff
            + (if (s.combo + 1) % 3 = 0 then (5 : Int) else 0)) := by
  refine ⟨rfl, fun cur2 h2 => by simp [hint_cb, h2], ?_, ?_, ?_, ?_, ?_⟩
  · rw [hint_cb_fresh s cur sample hfresh]
    simp [db_add_points]
    omega
  · rw [hint_cb_fresh s cur sample hfresh]
  · rw [hint_cb_fresh s cur sample hfresh]
    simp only [on_time_out, db_inc_wrong, db_set_combo, db_add_points]
    omega
  · intro h
    rw [hint_cb_fresh s cur sample hfresh]
    rw [answer_wrong_score _ _ _ h]
    simp [db_add_points]
    omega
  · intro h
    rw [hint_cb_fresh s cur sample hfresh]
    rw [answer_correct_score _ _ _ h]
    have hd : (hintRound cur sample).diff = cur.diff := rfl
    simp only [db_add_points, hd]
    ring

/-- Witness for C5: the spec's scenario — score 50, hint takes it to 40,
and a subsequent timeout leaves it at 40; a hint with no active round is a
no-op. -/
theorem hint_penalty_semantics_witness :
    hint_cb user50 none [1] = (user50, none, HintOutcome.noActive)
  ∧ (hint_cb user50 (some curHard) [1]).1.score = 40
  ∧ (on_time_out (hint_cb user50 (some curHard) [1]).1 (hintRound curHard [1])).1.score
      = 40 := by
  have h := hint_penalty_semantics user50 curHard [1] 1 rfl
  refine ⟨h.1, ?_, ?_⟩
  · rw [h.2.2.1]; decide
  · rw [h.2.2.2.2.1]; decide

/-! ### C6 -/

/-- C6 (counterexample): on the hinted round `curHinted` index 1 is
disabled, yet `answer_cb` does not reject the stale answer `ans|1` — it
settles it as a wrong answer and mutates the stored progress, refuting the
claim that such an answer is "rejected as invalid" and "not scored as a
settlement". -/
theorem stale_disabled_answer_is_settled :
    1 ∈ curHinted.disabled_idx
  ∧ (answer_cb user0 (some curHinted) 1).2.2 = AnswerOutcome.settled false false
  ∧ (answer_cb user0 (some curHinted) 1).1 ≠ user0 := by decide

/-- C6 (amended): after a hint the full option list, its order and the
correct index are retained in the round, and a stale answer referencing a
hidden option does not crash — but instead of being rejected it is
processed as a normal incorrect settlement (every hidden index is an
incorrect option). -/
theorem hint_retains_options_stale_answer_safe (s : UserState) (cur : Round)
    (sample : List Nat) (idx : Nat)
    (hsub : ∀ i ∈ sample, i ∈ wrong_idx cur)
    (h0 : cur.disabled_idx = [])
    (hidx : idx ∈ (hintRound cur sample).disabled_idx) :
    (hintRound cur sample).options = cur.options
  ∧ (hintRound cur sample).correct_idx = cur.correct_idx
  ∧ idx ≠ cur.correct_idx
  ∧ (answer_cb s (some (hintRound cur sample)) idx).2.2 = AnswerOutcome.settled false false
  ∧ (answer_cb s (some (hintRound cur sample)) idx).1.combo = 0 := by
  have hidx' : idx ∈ sample := by
    rcases (mem_hintRound_disabled cur sample idx).1 hidx with hc | hc
    · rw [h0] at hc
      cases hc
    · exact hc
  have hne : idx ≠ cur.correct_idx := ((mem_wrong_idx cur idx).1 (hsub _ hidx')).2
  exact ⟨rfl, rfl, hne, answer_wrong_outcome _ _ _ hne, answer_wrong_combo _ _ _ hne⟩

/-- Witness for C6 (amended): the hinted three-option round processes the
stale answer `ans|1` as a plain incorrect settlement. -/
theorem hint_retains_options_stale_answer_safe_witness :
    (hintRound curThree [1, 2]).options = curThree.options
  ∧ (hintRound curThree [1, 2]).correct_idx = curThree.correct_idx
  ∧ 1 ≠ curThree.correct_idx
  ∧ (answer_cb user0 (some (hintRound curThree [1, 2])) 1).2.2
      = AnswerOutcome.settled false false
  ∧ (answer_cb user0 (some (hintRound curThree [1, 2])) 1).1.combo = 0 :=
  hint_retains_options_stale_answer_safe user0 curThree [1, 2] 1
    (by decide) (by decide) (by decide)

/-! ### C7 -/

/-- C7: the draw signals exhaustion exactly when the pool, minus the
user's used questions, is empty — and `ask_new_question` turns exactly
that case into its terminal "pool exhausted" outcome — and a drawn
question is never one whose id is in the used set. -/
theorem draw_exhaustion_iff_and_excludes_used (pool : List Question) (s : UserState)
    (choice : Nat) (q : Question) :
    (draw pool s choice = none ↔ availableQuestions pool s = [])
  ∧ (∀ shuffled, ask_new_question pool s choice shuffled = AskOutcome.exhausted
      ↔ availableQuestions pool s = [])
  ∧ (draw pool s choice = some q → q.qid ∉ s.used) := by
  have hiff : draw pool s choice = none ↔ availableQuestions pool s = [] := by
    unfold draw
    dsimp only
    split
    · simpa [List.length_eq_zero] using ‹(availableQuestions pool s).length = 0›
    · simp only [reduceCtorEq, false_iff]
      intro hnil
      simp [hnil] at *
  refine ⟨hiff, fun shuffled => ?_, fun hd => ?_⟩
  · unfold ask_new_question
    rcases hdr : draw pool s choice with _ | q'
    · simpa [hdr] using hiff
    · simp only [reduceCtorEq, false_iff]
      intro hnil
      rw [← hiff] at hnil
      rw [hdr] at hnil
      cases hnil
  · have hmem : q ∈ availableQuestions pool s := by
      unfold draw at hd
      dsimp only at hd
      split at hd
      · cases hd
      · injection hd with h
        rw [← h]
        exact List.get_mem _ _ _
    have hkeep := (List.mem_filter.1 hmem).2
    simpa [db_is_used] using hkeep

/-- Witness for C7: on the one-question pool with a fresh user the draw
returns the question, which is not in the (empty) used set, and the
exhaustion equivalences hold at this input. -/
theorem draw_exhaustion_iff_and_excludes_used_witness :
    (draw [qPair] user0 0 = none ↔ availableQuestions [qPair] user0 = [])
  ∧ (ask_new_question [qPair] user0 0 qPair.options = AskOutcome.exhausted
      ↔ availableQuestions [qPair] user0 = [])
  ∧ qPair.qid ∉ user0.used := by
  have h := draw_exhaustion_iff_and_excludes_used [qPair] user0 0 qPair
  exact ⟨h.1, h.2.1 qPair.options, h.2.2 (by decide)⟩

/-! ### C9 -/

/-- C9 (counterexample): `load_questions` keeps a raw entry whose option
list is the single element `["1999"]` (the answer itself), because the
loader only checks that the option list is non-empty and contains the
answer — refuting "option list has at least 2 unique entries". -/
theorem load_questions_keeps_single_option_entry :
    load_questions [rawSingle] = [qSingle] ∧ ¬ 2 ≤ qSingle.options.length := by decide

/-- C9 (amended): every question kept by `load_questions` has a known
difficulty, an answer that is a member of its option list, a non-empty
option list, and non-empty category/question/answer texts; malformed
entries are dropped at load time.  The loader does not enforce "at least
2 unique options". -/
theorem load_questions_validation (raw : List RawItem) (q : Question)
    (hq : q ∈ load_questions raw) :
    (q.difficulty = "easy" ∨ q.difficulty = "medium" ∨ q.difficulty = "hard")
  ∧ q.answer ∈ q.options
  ∧ q.options ≠ []
  ∧ q.category ≠ "" ∧ q.question ≠ "" ∧ q.answer ≠ "" := by
  rcases List.mem_filterMap.1 hq with ⟨it, -, hit⟩
  unfold parseItem at hit
  dsimp only at hit
  split at hit
  · rename_i hcond
    split at hit
    · rename_i hans
      injection hit with h
      rw [← h]
      exact ⟨hcond.2.1, hans, hcond.2.2.2.1, hcond.1, hcond.2.2.1, hcond.2.2.2.2⟩
    · cases hit
  · cases hit

/-- Witness for C9 (amended): the two-option entry `rawPair` loads into a
question satisfying all the validated constraints. -/
theorem load_questions_validation_witness :
    (qPair.difficulty = "easy" ∨ qPair.difficulty = "medium" ∨ qPair.difficulty = "hard")
  ∧ qPair.answer ∈ qPair.options
  ∧ qPair.options ≠ []
  ∧ qPair.category ≠ "" ∧ qPair.question ≠ "" ∧ qPair.answer ≠ "" :=
  load_questions_validation [rawPair] qPair (by decide)

/-! ### Counting and ordering the enabled answer buttons -/

theorem enabledButtons_eq (opts : List String) (dis : List Nat) :
    enabledButtons opts dis = (optionRows dis 0 opts).flatten.filter Button.isAns := by
  simp [enabledButtons, playing_kb, List.flatten_append, List.filter_append, Button.isAns]

theorem filter_isAns_noop (t : String) :
    List.filter Button.isAns [(⟨"🚫 " ++ t, Callback.noop⟩ : Button)] = [] := rfl

theorem filter_isAns_ans (t : String) (i : Nat) :
    List.filter Button.isAns [(⟨t, Callback.ans i⟩ : Button)]
      = [(⟨t, Callback.ans i⟩ : Button)] := rfl

theorem optionRows_enabled_length (dis : List Nat) (opts : List String) :
    ∀ i, ((optionRows dis i opts).flatten.filter Button.isAns).length
      = ((List.range' i opts.length).filter (fun j => decide (j ∉ dis))).length := by
  induction opts with
  | nil => intro i; rfl
  | cons t rest ih =>
    intro i
    have hrange : List.range' i (t :: rest).length = i :: List.range' (i + 1) rest.length := by
      rw [List.length_cons]
      exact List.range'_succ i rest.length 1
    by_cases hi : i ∈ dis
    · have hhead : optionRows dis i (t :: rest)
          = [⟨"🚫 " ++ t, Callback.noop⟩] :: optionRows dis (i + 1) rest := by
        simp [optionRows, hi]
      have hfr : List.filter (fun j => decide (j ∉ dis)) (i :: List.range' (i + 1) rest.length)
          = List.filter (fun j => decide (j ∉ dis)) (List.range' (i + 1) rest.length) := by
        simp [hi]
      rw [hhead, hrange, List.flatten_cons, List.filter_append, List.length_append,
        filter_isAns_noop, hfr, List.length_nil, Nat.zero_add]
      exact ih (i + 1)
    · have hhead : optionRows dis i (t :: rest)
          = [⟨t, Callback.ans i⟩] :: optionRows dis (i + 1) rest := by
        simp [optionRows, hi]
      have hfr : List.filter (fun j => decide (j ∉ dis)) (i :: List.range' (i + 1) rest.length)
          = i :: List.filter (fun j => decide (j ∉ dis)) (List.range' (i + 1) rest.length) := by
        simp [hi]
      rw [hhead, hrange, List.flatten_cons, List.filter_append, List.length_append,
        filter_isAns_ans, hfr, List.length_cons, List.length_cons, ih (i + 1)]
      simp only [List.length_nil]
      omega

theorem optionRows_enabled_sublist (opts : List String) (d1 d2 : List Nat)
    (h : ∀ x ∈ d1, x ∈ d2) :
    ∀ i, List.Sublist ((optionRows d2 i opts).flatten.filter Button.isAns)
      ((optionRows d1 i opts).flatten.filter Button.isAns) := by
  induction opts with
  | nil => intro i; exact List.Sublist.refl _
  | cons t rest ih =>
    intro i
    by_cases h2 : i ∈ d2
    · by_cases h1 : i ∈ d1
      · have e1 : optionRows d1 i (t :: rest)
            = [⟨"🚫 " ++ t, Callback.noop⟩] :: optionRows d1 (i + 1) rest := by
          simp [optionRows, h1]
        have e2 : optionRows d2 i (t :: rest)
            = [⟨"🚫 " ++ t, Callback.noop⟩] :: optionRows d2 (i + 1) rest := by
          simp [optionRows, h2]
        rw [e1, e2, List.flatten_cons, List.flatten_cons, List.filter_append,
          List.filter_append, filter_isAns_noop, List.nil_append, List.nil_append]
        exact ih (i + 1)
      · have e1 : optionRows d1 i (t :: rest)
            = [⟨t, Callback.ans i⟩] :: optionRows d1 (i + 1) rest := by
          simp [optionRows, h1]
        have e2 : optionRows d2 i (t :: rest)
            = [⟨"🚫 " ++ t, Callback.noop⟩] :: optionRows d2 (i + 1) rest := by
          simp [optionRows, h2]
        rw [e1, e2, List.flatten_cons, List.flatten_cons, List.filter_append,
          List.filter_append, filter_isAns_noop, filter_isAns_ans, List.nil_append,
          List.cons_append, List.nil_append]
        exact List.Sublist.cons _ (ih (i + 1))
    · have h1 : i ∉ d1 := fun hx => h2 (h _ hx)
      have e1 : optionRows d1 i (t :: rest)
          = [⟨t, Callback.ans i⟩] :: optionRows d1 (i + 1) rest := by
        simp [optionRows, h1]
      have e2 : optionRows d2 i (t :: rest)
          = [⟨t, Callback.ans i⟩] :: optionRows d2 (i + 1) rest := by
        simp [optionRows, h2]
      rw [e1, e2, List.flatten_cons, List.flatten_cons, List.filter_append,
        List.filter_append, filter_isAns_ans, List.cons_append, List.cons_append,
        List.nil_append, List.nil_append]
      exact List.Sublist.cons₂ _ (ih (i + 1))

theorem length_filter_not_pred (p : Nat → Prop) [DecidablePred p] (l : List Nat) :
    (l.filter (fun a => decide (¬ p a))).length
        = l.length - (l.filter (fun a => decide (p a))).length
      ∧ (l.filter (fun a => decide (p a))).length ≤ l.length := by
  induction l with
  | nil => simp
  | cons x xs ih =>
    by_cases hx : p x
    · simp only [List.filter_cons]
      rw [if_neg (by simp [hx]), if_pos (by simp [hx])]
      simp only [List.length_cons]
      omega
    · simp only [List.filter_cons]
      rw [if_pos (by simp [hx]), if_neg (by simp [hx])]
      simp only [List.length_cons]
      omega

theorem length_filter_mem_range (N : Nat) (dis sample : List Nat)
    (hmem : ∀ a, a ∈ dis ↔ a ∈ sample)
    (hnd : sample.Nodup) (hsub : ∀ a ∈ sample, a < N) :
    ((List.range N).filter (fun a => decide (a ∈ dis))).length = sample.length := by
  have hperm : List.Perm ((List.range N).filter (fun a => decide (a ∈ dis))) sample := by
    refine (List.perm_ext_iff_of_nodup ((List.nodup_range N).filter _) hnd).2 ?_
    intro a
    simp only [List.mem_filter, List.mem_range, decide_eq_true_eq, hmem]
    exact ⟨fun h => h.2, fun h => ⟨hsub a h, h⟩⟩
  exact hperm.length_eq

theorem length_filter_eq_single (N c : Nat) (hc : c < N) :
    ((List.range N).filter (fun a => decide (a = c))).length = 1 := by
  have hperm : List.Perm ((List.range N).filter (fun a => decide (a = c))) [c] := by
    refine (List.perm_ext_iff_of_nodup ((List.nodup_range N).filter _)
      (List.nodup_singleton c)).2 ?_
    intro a
    simp only [List.mem_filter, List.mem_range, decide_eq_true_eq, List.mem_singleton]
    constructor
    · exact fun h => h.2
    · rintro rfl
      exact ⟨hc, rfl⟩
  exact hperm.length_eq

theorem wrong_idx_length (cur : Round) (hlt : cur.correct_idx < cur.options.length) :
    (wrong_idx cur).length = cur.options.length - 1 := by
  have h := length_filter_not_pred (fun a => a = cur.correct_idx) (List.range cur.options.length)
  have hone := length_filter_eq_single cur.options.length cur.correct_idx hlt
  unfold wrong_idx
  rw [h.1, hone, List.length_range]

/-! ### C4 -/

/-- C4 (counterexample): on a fresh three-option round the only valid hint
sample disables both incorrect options, leaving exactly one enabled option
— not two — refuting "exactly 2 options enabled" for N = 3 ≥ 2. -/
theorem hint_three_option_round_enables_one :
    validSample curThree [1, 2]
  ∧ 2 ≤ curThree.options.length
  ∧ (enabledButtons (hintRound curThree [1, 2]).options
      (hintRound curThree [1, 2]).disabled_idx).length = 1
  ∧ (enabledButtons (hintRound curThree [1, 2]).options
      (hintRound curThree [1, 2]).disabled_idx).length ≠ 2 := by decide

/-- C4 (amended): a hint on a fresh N-option round disables
`min 2 (N - 1)` incorrect options drawn from the incorrect set, so exactly
`N - min 2 (N - 1)` options remain enabled (which is 2 exactly when
N = 4), and the correct option is always among the enabled ones. -/
theorem hint_enabled_option_count (cur : Round) (sample : List Nat)
    (hvalid : validSample cur sample)
    (hd0 : cur.disabled_idx = [])
    (hlt : cur.correct_idx < cur.options.length) :
    (enabledButtons (hintRound cur sample).options
        (hintRound cur sample).disabled_idx).length
      = cur.options.length - min 2 (cur.options.length - 1)
  ∧ cur.correct_idx ∈
      enabled_idx (hintRound cur sample).options (hintRound cur sample).disabled_idx := by
  obtain ⟨hnd, hsub, hlen⟩ := hvalid
  have hopts : (hintRound cur sample).options = cur.options := rfl
  constructor
  · rw [hopts, enabledButtons_eq, optionRows_enabled_length, ← List.range_eq_range']
    have hmm : ∀ a, a ∈ (hintRound cur sample).disabled_idx ↔ a ∈ sample := by
      intro a
      rw [mem_hintRound_disabled, hd0]
      simp
    have hsubN : ∀ a ∈ sample, a < cur.options.length :=
      fun a ha => ((mem_wrong_idx cur a).1 (hsub a ha)).1
    have hcount := length_filter_mem_range cur.options.length
      (hintRound cur sample).disabled_idx sample hmm hnd hsubN
    have hpart := length_filter_not_pred (fun a => a ∈ (hintRound cur sample).disabled_idx)
      (List.range cur.options.length)
    rw [hpart.1, hcount, List.length_range, hlen, wrong_idx_length cur hlt]
  · have h0 : cur.correct_idx ∉ cur.disabled_idx := by
      rw [hd0]
      exact List.not_mem_nil _
    have hnot := correct_idx_not_disabled_after_hint cur sample hsub h0
    exact (mem_enabled_idx _ _ _).2 ⟨hlt, hnot⟩

/-- Witness for C4 (amended): on the fresh five-option round the sample
{1, 3} is valid and leaves 5 - 2 = 3 options enabled, the correct one
among them. -/
theorem hint_enabled_option_count_witness :
    (enabledButtons (hintRound curFive [1, 3]).options
        (hintRound curFive [1, 3]).disabled_idx).length
      = curFive.options.length - min 2 (curFive.options.length - 1)
  ∧ curFive.correct_idx ∈
      enabled_idx (hintRound curFive [1, 3]).options (hintRound curFive [1, 3]).disabled_idx :=
  hint_enabled_option_count curFive [1, 3] (by decide) (by decide) (by decide)

/-! ### C8 -/

/-- C8: the display order is a permutation of the question's options fixed
once at round creation (the only shuffle happens in `ask_new_question`,
with an initially empty disabled set); a hint leaves the option list
untouched and only grows the disabled set, so the enabled answer buttons
after a hint form a sublist — hence keep the relative order — of the
enabled answer buttons before it. -/
theorem display_order_fixed_and_hint_order_preserving (q : Question)
    (shuffled : List String) (cur : Round) (sample : List Nat)
    (hperm : shuffled.Perm q.options) :
    (mkRound q shuffled).options.Perm q.options
  ∧ (mkRound q shuffled).disabled_idx = []
  ∧ (hintRound cur sample).options = cur.options
  ∧ List.Sublist (enabledButtons cur.options (hintRound cur sample).disabled_idx)
      (enabledButtons cur.options cur.disabled_idx) := by
  refine ⟨hperm, rfl, rfl, ?_⟩
  rw [enabledButtons_eq, enabledButtons_eq]
  refine optionRows_enabled_sublist cur.options cur.disabled_idx
    (hintRound cur sample).disabled_idx (fun x hx => ?_) 0
  rw [mem_hintRound_disabled]
  exact Or.inl hx

/-- Witness for C8: a concrete shuffle of the two-option question and a
hint on the fresh three-option round. -/
theorem display_order_fixed_and_hint_order_preserving_witness :
    (mkRound qPair ["Финчер", "Нолан"]).options.Perm qPair.options
  ∧ (mkRound qPair ["Финчер", "Нолан"]).disabled_idx = []
  ∧ (hintRound curThree [1]).options = curThree.options
  ∧ List.Sublist (enabledButtons curThree.options (hintRound curThree [1]).disabled_idx)
      (enabledButtons curThree.options curThree.disabled_idx) :=
  display_order_fixed_and_hint_order_preserving qPair ["Финчер", "Нолан"] curThree [1]
    (List.Perm.swap "Нолан" "Финчер" [])

/-! ### C3 -/

theorem settleCorrectSt_total_correct (s : UserState) (cur : Round) :
    (settleCorrectSt s cur).total_correct = s.total_correct + 1 := by
  unfold settleCorrectSt
  dsimp only
  split <;> rfl

theorem settleCorrectSt_total_wrong (s : UserState) (cur : Round) :
    (settleCorrectSt s cur).total_wrong = s.total_wrong := by
  unfold settleCorrectSt
  dsimp only
  split <;> rfl

theorem settlements_settleCorrectSt (s : UserState) (cur : Round) :
    settlements (settleCorrectSt s cur) = settlements s + 1 := by
  unfold settlements
  rw [settleCorrectSt_total_correct, settleCorrectSt_total_wrong]
  omega

theorem settlements_db_mark_used (s : UserState) (q : String) :
    settlements (db_mark_used s q) = settlements s := by
  unfold settlements
  rw [db_mark_used_total_correct, db_mark_used_total_wrong]

/-- C3 (counterexample): the ACTIVE→RESOLVED transition is not guarded by
a mutual-exclusion mechanism — under the interleaving `racySched` the
timeout handler persists its settlement writes before being cancelled, the
answer handler then also settles, and the final persisted state records two
settlements (`total_wrong` and `total_correct` both incremented) instead of
exactly one. -/
theorem race_interleaving_double_settlement :
    ¬ (∀ sched : List Bool,
        finished (runSched sched (raceStart user0 curHard)) →
        settlements (runSched sched (raceStart user0 curHard)).st
          = settlements user0 + 1) := by
  intro h
  have hbad := h racySched (by decide)
  revert hbad
  decide

/-- C3 (amended): settlement is guarded only by the in-memory presence of
`current` plus best-effort cancellation of the timer task.  When the two
racing handlers do not interleave, exactly one settlement is computed and
persisted and the loser is discarded as a no-op: a timeout that completes
first makes the late answer abort at its `current` check, and an answer
that completes first cancels the timer before it settles.  (Interleaved
executions, however, can persist both settlements — see the
counterexample.) -/
theorem race_sequential_single_settlement (s : UserState) (cur : Round) :
    (finished (runSched seqTimeoutFirst (raceStart s cur))
      ∧ settlements (runSched seqTimeoutFirst (raceStart s cur)).st = settlements s + 1)
  ∧ (finished (runSched seqAnswerFirst (raceStart s cur))
      ∧ settlements (runSched seqAnswerFirst (raceStart s cur)).st = settlements s + 1) := by
  have hrun1 : runSched seqTimeoutFirst (raceStart s cur)
      = { st := db_set_combo (db_inc_wrong s) 0, round := cur, curPresent := false,
          tActs := [], aActs := [], cancelled := false } := rfl
  have hrun2 : runSched seqAnswerFirst (raceStart s cur)
      = { st := db_mark_used (settleCorrectSt s cur) cur.qid, round := cur,
          curPresent := false, tActs := [], aActs := [], cancelled := true } := rfl
  refine ⟨⟨?_, ?_⟩, ⟨?_, ?_⟩⟩
  · rw [hrun1]
    exact ⟨rfl, rfl⟩
  · rw [hrun1]
    simp only [settlements, db_set_combo, db_inc_wrong]
    omega
  · rw [hrun2]
    exact ⟨rfl, rfl⟩
  · rw [hrun2, settlements_db_mark_used, settlements_settleCorrectSt]

end QuizBot
